import Mathlib

/-!
Verification development for the UDP virtual LoRaWAN device bridge
(`src/udp_radio.rs`).  The Rust source is shallowly embedded: bytes are
naturals below 256, machine integers are naturals reduced modulo the word
size where the source truncates, panics appear as an explicit fatal
outcome, and every channel/queue is a Lean list.
-/

namespace VirtualLorawan

/-! ## Base64 (standard alphabet, padded) — semantics of the `base64`
crate calls `base64::encode` / `base64::decode` used by the radio
adapter (`handle_event`). -/

/-- Standard base64 alphabet, as used by `base64::encode` (RFC 4648). -/
def b64chars : List Char :=
  "ABCDEFGHIJKLMNOPQRSTUVWXYZabcdefghijklmnopqrstuvwxyz0123456789+/".toList

/-- Value `n < 64` to its base64 digit. -/
def b64encChar (n : Nat) : Char := b64chars.getD n 'A'

/-- Base64 digit back to its 6-bit value; `none` on a character outside
the alphabet (this is what makes `base64::decode` fail on corruption). -/
def b64decChar (c : Char) : Option Nat :=
  List.findIdx? (fun x => x == c) b64chars

/-- Embedding of `base64::encode`: bytes to padded base64 text, three bytes per four
output characters. -/
def b64encode : List Nat → List Char
  | [] => []
  | [a] => [b64encChar (a / 4), b64encChar (a % 4 * 16), '=', '=']
  | [a, b] =>
    [b64encChar (a / 4), b64encChar (a % 4 * 16 + b / 16),
     b64encChar (b % 16 * 4), '=']
  | a :: b :: c :: rest =>
    b64encChar (a / 4) :: b64encChar (a % 4 * 16 + b / 16) ::
    b64encChar (b % 16 * 4 + c / 64) :: b64encChar (c % 64) :: b64encode rest

/-- Decode the final (possibly padded) quadruple of a base64 text.
Non-canonical trailing bits are rejected, as the default config of the
`base64` crate does. -/
def b64decodeLast (c1 c2 c3 c4 : Char) : Option (List Nat) :=
  if c3 = '=' then
    match b64decChar c1, b64decChar c2 with
    | some a, some b =>
      if c4 = '=' ∧ b % 16 = 0 then some [a * 4 + b / 16] else none
    | _, _ => none
  else if c4 = '=' then
    match b64decChar c1, b64decChar c2, b64decChar c3 with
    | some a, some b, some c =>
      if c % 4 = 0 then some [a * 4 + b / 16, b % 16 * 16 + c / 4] else none
    | _, _, _ => none
  else
    match b64decChar c1, b64decChar c2, b64decChar c3, b64decChar c4 with
    | some a, some b, some c, some d =>
      some [a * 4 + b / 16, b % 16 * 16 + c / 4, c % 4 * 64 + d]
    | _, _, _, _ => none

/-- Embedding of `base64::decode`: padded base64 text back to bytes; here
`none` models the `Err` the crate returns on malformed input. -/
def b64decode : List Char → Option (List Nat)
  | [] => some []
  | c1 :: c2 :: c3 :: c4 :: rest =>
    if rest.isEmpty then b64decodeLast c1 c2 c3 c4
    else
      match b64decChar c1, b64decChar c2, b64decChar c3, b64decChar c4,
          b64decode rest with
      | some a, some b, some c, some d, some tail =>
        some ((a * 4 + b / 16) :: (b % 16 * 16 + c / 4) ::
          (c % 4 * 64 + d) :: tail)
      | _, _, _, _, _ => none
  | _ => none

theorem b64decChar_encChar : ∀ n < 64, b64decChar (b64encChar n) = some n := by
  decide

theorem b64encChar_ne_pad : ∀ n < 64, b64encChar n ≠ '=' := by
  decide

theorem b64encode_ne_nil : ∀ bs : List Nat, bs ≠ [] → b64encode bs ≠ [] := by
  intro bs h
  match bs with
  | [a] => simp [b64encode]
  | [a, b] => simp [b64encode]
  | a :: b :: c :: rest => simp [b64encode]

/-- Round-trip law for the embedded base64: decoding an encoding returns
the original byte list. -/
theorem b64_roundtrip :
    ∀ bs : List Nat, (∀ x ∈ bs, x < 256) →
      b64decode (b64encode bs) = some bs := by
  intro bs
  induction bs using b64encode.induct with
  | case1 =>
    intro _
    simp [b64encode, b64decode]
  | case2 a =>
    intro hb
    have ha : a < 256 := hb a (by simp)
    have h1 : b64decChar (b64encChar (a / 4)) = some (a / 4) :=
      b64decChar_encChar _ (by omega)
    have h2 : b64decChar (b64encChar (a % 4 * 16)) = some (a % 4 * 16) :=
      b64decChar_encChar _ (by omega)
    have hz : a % 4 * 16 % 16 = 0 := by omega
    have hv : a / 4 * 4 + a % 4 * 16 / 16 = a := by omega
    simp only [b64encode, b64decode, List.isEmpty, b64decodeLast, h1, h2]
    simp [hz]
    all_goals omega
  | case3 a b =>
    intro hb
    have ha : a < 256 := hb a (by simp)
    have hbb : b < 256 := hb b (by simp)
    have h1 : b64decChar (b64encChar (a / 4)) = some (a / 4) :=
      b64decChar_encChar _ (by omega)
    have h2 : b64decChar (b64encChar (a % 4 * 16 + b / 16)) =
        some (a % 4 * 16 + b / 16) :=
      b64decChar_encChar _ (by omega)
    have h3 : b64decChar (b64encChar (b % 16 * 4)) = some (b % 16 * 4) :=
      b64decChar_encChar _ (by omega)
    have hne : b64encChar (b % 16 * 4) ≠ '=' :=
      b64encChar_ne_pad _ (by omega)
    have hz : b % 16 * 4 % 4 = 0 := by omega
    have e1 : a / 4 * 4 + (a % 4 * 16 + b / 16) / 16 = a := by omega
    have e2 : (a % 4 * 16 + b / 16) % 16 * 16 + b % 16 * 4 / 4 = b := by omega
    simp only [b64encode, b64decode, List.isEmpty, b64decodeLast,
      if_neg hne, h1, h2, h3]
    simp [hz]
    all_goals omega
  | case4 a b c rest ih =>
    intro hb
    have ha : a < 256 := hb a (by simp)
    have hbb : b < 256 := hb b (by simp)
    have hc : c < 256 := hb c (by simp)
    have hrest : ∀ x ∈ rest, x < 256 := by
      intro x hx; exact hb x (by simp [hx])
    have h1 : b64decChar (b64encChar (a / 4)) = some (a / 4) :=
      b64decChar_encChar _ (by omega)
    have h2 : b64decChar (b64encChar (a % 4 * 16 + b / 16)) =
        some (a % 4 * 16 + b / 16) :=
      b64decChar_encChar _ (by omega)
    have h3 : b64decChar (b64encChar (b % 16 * 4 + c / 64)) =
        some (b % 16 * 4 + c / 64) :=
      b64decChar_encChar _ (by omega)
    have h4 : b64decChar (b64encChar (c % 64)) = some (c % 64) :=
      b64decChar_encChar _ (by omega)
    have e1 : a / 4 * 4 + (a % 4 * 16 + b / 16) / 16 = a := by omega
    have e2 : (a % 4 * 16 + b / 16) % 16 * 16 + (b % 16 * 4 + c / 64) / 4 = b := by
      omega
    have e3 : (b % 16 * 4 + c / 64) % 4 * 64 + c % 64 = c := by omega
    match hrest2 : rest with
    | [] =>
      have hne3 : b64encChar (b % 16 * 4 + c / 64) ≠ '=' :=
        b64encChar_ne_pad _ (by omega)
      have hne4 : b64encChar (c % 64) ≠ '=' :=
        b64encChar_ne_pad _ (by omega)
      simp only [b64encode, b64decode, List.isEmpty, b64decodeLast,
        if_neg hne3, if_neg hne4, h1, h2, h3, h4]
      simp
      all_goals omega
    | r1 :: rs =>
      have hinner : b64decode (b64encode (r1 :: rs)) = some (r1 :: rs) :=
        ih (by intro x hx; exact hrest x hx)
      have hnonnil : b64encode (r1 :: rs) ≠ [] :=
        b64encode_ne_nil _ (by simp)
      have hempty : (b64encode (r1 :: rs)).isEmpty = false := by
        cases he : b64encode (r1 :: rs) with
        | nil => exact absurd he hnonnil
        | cons x xs => simp
      simp only [b64encode, b64decode, hempty, h1, h2, h3, h4, hinner]
      simp
      all_goals omega

/-! ## Device label (`pretty_device`) -/

/-- Lowercase hex digits, as produced by `hex::encode`. -/
def hexDigits : List Char := "0123456789abcdef".toList

/-- One byte to its two lowercase hex characters. -/
def hexEncodeByte (b : Nat) : List Char :=
  [hexDigits.getD (b / 16 % 16) '0', hexDigits.getD (b % 16) '0']

/-- Embedding of `hex::encode` over a byte list. -/
def hexEncode (bs : List Nat) : List Char := (bs.map hexEncodeByte).flatten

/-- Embedding of `pretty_device`: reverse the DevEUI bytes, hex-encode, uppercase, then
take the substring starting at index 12 (the Rust `[12..]` slice drops the
first 12 characters). -/
def pretty_device (deveui : List Nat) : List Char :=
  ((hexEncode deveui.reverse).map Char.toUpper).drop 12

/-- Modelled from the spec: the same pipeline but taking the LAST 12
characters of the uppercased hex string, as §6 of the spec words it
("take the last 12 characters").  Kept separate so it can be compared
against the implementation above. -/
def pretty_device_specLast12 (deveui : List Nat) : List Char :=
  let s := ((hexEncode deveui.reverse).map Char.toUpper)
  s.drop (s.length - 12)

/-! ## Radio configuration and its wire labels (`Settings::get_datr`,
`get_codr`, `get_freq`) -/

/-- Embedding of `lorawan_device::radio::SpreadingFactor` as matched by `get_datr`. -/
inductive SpreadingFactor
  | SF7 | SF8 | SF9 | SF10 | SF11 | SF12
deriving DecidableEq

/-- Embedding of `lorawan_device::radio::Bandwidth` as matched by `get_datr`. -/
inductive Bandwidth
  | BW125 | BW250 | BW500
deriving DecidableEq

/-- Embedding of `lorawan_device::radio::CodingRate` as matched by `get_codr`. -/
inductive CodingRate
  | CR4over5 | CR4over6 | CR4over7 | CR4over8
deriving DecidableEq

/-- Embedding of `lorawan_device::radio::RfConfig`: the fields the bridge reads. -/
structure RfConfig where
  spreading_factor : SpreadingFactor
  bandwidth : Bandwidth
  coding_rate : CodingRate
  frequency : Nat
deriving DecidableEq

/-- Embedding of `Settings::get_datr`: spreading-factor label glued to bandwidth label. -/
def get_datr (c : RfConfig) : String :=
  (match c.spreading_factor with
   | .SF7 => "SF7"
   | .SF8 => "SF8"
   | .SF9 => "SF9"
   | .SF10 => "SF10"
   | .SF11 => "SF11"
   | .SF12 => "SF12") ++
  (match c.bandwidth with
   | .BW125 => "BW125"
   | .BW250 => "BW250"
   | .BW500 => "BW500")

/-- Embedding of `Settings::get_codr`: the fixed coding-rate string table. -/
def get_codr (c : RfConfig) : String :=
  match c.coding_rate with
  | .CR4over5 => "4/5"
  | .CR4over6 => "4/6"
  | .CR4over7 => "4/7"
  | .CR4over8 => "4/8"

/-- Embedding of `Settings::get_freq`: frequency in MHz (the f64 division
`frequency as f64 / 1_000_000.0`, embedded exactly over the rationals). -/
def get_freq (c : RfConfig) : ℚ := (c.frequency : ℚ) / 1000000

/-! ## Radio adapter state and `handle_event` -/

/-- The outbound `RxPk` record the adapter builds on a transmit request. -/
structure RxPk where
  chan : Nat
  codr : String
  data : List Char
  datr : String
  freq : ℚ
  lsnr : ℚ
  modu : String
  rfch : Nat
  rssi : Int
  size : Nat
  stat : Nat
  tmst : Nat
deriving DecidableEq

/-- Result of a radio operation: a value, or process termination
(the explicit panics of the Rust code). -/
inductive Outcome (α : Type)
  | ok (a : α)
  | fatal (msg : String)
deriving DecidableEq

/-- Embedding of the `lorawan_device::radio::Response` values `handle_event` returns. -/
inductive RadioResponse
  | TxDone (ms : Nat)
  | Idle
  | RxDone (rssi : Int) (snr : Int)
deriving DecidableEq

/-- Mutable state of `UdpRadio`: the outbound UDP channel (a list plus its
capacity, `try_send` failing exactly when it is full), the 256-byte
`heapless` receive buffer, the captured settings, and `window_start`. -/
structure UdpRadioState where
  outbound : List RxPk
  outboundCap : Nat
  rx_buffer : List Nat
  settings : RfConfig
  window_start : Nat
  jitter : Bool
deriving DecidableEq

/-- Embedding of `lorawan_device::radio::Event` as the adapter consumes
it; the PHY event carries the base64 payload text of the inbound packet. -/
inductive RadioEvent
  | TxRequest (tx_config : RfConfig) (buffer : List Nat)
  | RxRequest (config : RfConfig)
  | CancelRx
  | PhyEvent (encoded : List Char)

/-- Capacity of the `heapless::Vec<u8, U256>` receive buffer. -/
def rxBufferCapacity : Nat := 256

/-- One `rx_buffer.push(el)`: fails (the source panics) when full. -/
def rxBufferPush (buf : List Nat) (x : Nat) : Option (List Nat) :=
  if buf.length < rxBufferCapacity then some (buf ++ [x]) else none

/-- The decode loop `for el in data { rx_buffer.push(el) }`, stopping
fatally at the first failing push. -/
def fillRxBuffer : List Nat → List Nat → Option (List Nat)
  | buf, [] => some buf
  | buf, x :: xs =>
    match rxBufferPush buf x with
    | some b => fillRxBuffer b xs
    | none => none

/-- Embedding of `UdpRadio::handle_event`.  `nowMicros`/`nowMillis` are the two clock
reads `time.elapsed().as_micros() as u64` and `as_millis() as u32`
(hence the mod-2^64 / mod-2^32 truncations). -/
def handle_event (st : UdpRadioState) (nowMicros nowMillis : Nat)
    (ev : RadioEvent) : Outcome (UdpRadioState × RadioResponse) :=
  match ev with
  | .TxRequest tx_config buffer =>
    let size := buffer.length
    let data := b64encode buffer
    let tmst := nowMicros % 2 ^ 64
    let rxpk : RxPk :=
      { chan := 0
        codr := get_codr tx_config
        data := data
        datr := get_datr tx_config
        freq := get_freq tx_config
        lsnr := 5.5
        modu := "LORA"
        rfch := 0
        rssi := -112
        size := size
        stat := 1
        tmst := tmst }
    if st.outbound.length < st.outboundCap then
      .ok ({ st with outbound := st.outbound ++ [rxpk] },
        .TxDone (nowMillis % 2 ^ 32))
    else
      .fatal "UdpTx Queue Overflow!"
  | .RxRequest config =>
    .ok ({ st with settings := config }, .Idle)
  | .CancelRx => .ok (st, .Idle)
  | .PhyEvent encoded =>
    match b64decode encoded with
    | some data =>
      match fillRxBuffer [] data with
      | some buf => .ok ({ st with rx_buffer := buf }, .RxDone (-115) 4)
      | none => .fatal "Error pushing data into rx_buffer"
    | none => .fatal "Semtech UDP Packet Decoding Error"

/-! ## Timer service (`UdpRadio::timer`) -/

/-- The u32 subtraction `future_time - elapsed_ms` with Rust release
(wrapping) semantics. -/
def timerDelay (future_time nowMs : Nat) : Nat :=
  (future_time % 2 ^ 32 + 2 ^ 32 - nowMs % 2 ^ 32) % 2 ^ 32

/-- The same subtraction under Rust debug semantics: `none` is the
overflow panic. -/
def timerDelayChecked (future_time nowMs : Nat) : Option Nat :=
  if nowMs % 2 ^ 32 ≤ future_time % 2 ^ 32 then
    some (future_time % 2 ^ 32 - nowMs % 2 ^ 32)
  else
    none

/-- Embedding of `UdpRadio::timer`: computes the delay, spawns sleep-then-enqueue of
`Timeout` for that many ms, and records it as `window_start`.  Returned
pair: (sleep duration of the spawned task, new `window_start`). -/
def timer (future_time nowMs : Nat) : Nat × Nat :=
  let delay := timerDelay future_time nowMs
  (delay, delay)

/-! ## Event router (`UdpRadioRuntime::run`) -/

/-- Embedding of `semtech_udp::StringOrNum`: the `tmst` field of a PullResp. -/
inductive StringOrNum
  | N (n : Nat)
  | S (s : String)

/-- What the router does with one inbound PullResp record. -/
inductive RouterAction
  | scheduleRx (sleepMs : Nat) (delayMs : Nat)
  | dropLate (lateByMs : Nat)
  | dropImmediate
deriving DecidableEq

/-- The per-record body of `UdpRadioRuntime::run`: `n / 1000` versus the
elapsed shared-clock milliseconds decides between a spawned delayed
delivery (sleep `delay + 50`, enqueue `Rx` carrying `delay`) and a
warned drop. -/
def routePullResp (tmst : StringOrNum) (nowMs : Nat) : RouterAction :=
  match tmst with
  | .N n =>
    let scheduled_time := n / 1000
    if scheduled_time > nowMs then
      let delay := scheduled_time - nowMs
      .scheduleRx (delay + 50) delay
    else
      .dropLate (nowMs - scheduled_time)
  | .S _ => .dropImmediate

/-! ## Driver loop (`run_loop`) -/

/-- Event union `IntermediateEvent` of the internal queue.  `Rx` carries
the packet (by its payload text) and the computed delivery delay. -/
inductive IntermediateEvent
  | Rx (payload : List Char) (time_received : Nat)
  | NewSession
  | Timeout
  | SendPacket
deriving DecidableEq

/-- Embedding of the `prometheus_service::Stat` values the loop reports. -/
inductive Stat
  | DownlinkTimeout
  | DownlinkResponse (ms : Nat)
deriving DecidableEq

/-- Observable actions of one response-handling arm of `run_loop`:
a direct queue send, a spawned sleep-then-send, arming the radio timer,
or a telemetry report. -/
inductive DriverAction
  | enqueue (ev : IntermediateEvent)
  | sendAfter (delayMs : Nat) (ev : IntermediateEvent)
  | armTimer (future_time : Nat)
  | report (s : Stat)
deriving DecidableEq

/-- Embedding of the `lorawan_device::Response` constructors `run_loop`
matches on; the final `_ => ()` arm of the source absorbs every other constructor, abstracted
here as `otherResponse`. -/
inductive LorawanResponse
  | TimeoutRequest (delay : Nat)
  | NoJoinAccept
  | NewSession
  | Idle
  | NoAck
  | ReadyToSend
  | DataDown (fcnt_down : Nat)
  | Rxing
  | otherResponse (k : Nat)

/-- The jitter term `(get_random_u32() & 0x7F) as u64` when jitter is
enabled, 0 otherwise. -/
def jitterVal (jitter : Bool) (rand : Nat) : Nat :=
  if jitter then rand &&& 127 else 0

/-- The response `match` of `run_loop`, as the list of driver actions it
performs.  `time` is the `Rx` delivery delay remembered for telemetry;
`hasPrometheus` is whether the optional telemetry sender is present. -/
def handleResponse (resp : LorawanResponse) (transmit_delay : Nat)
    (jitter : Bool) (rand : Nat) (time : Option Nat)
    (hasPrometheus : Bool) : List DriverAction :=
  match resp with
  | .TimeoutRequest delay => [.armTimer delay]
  | .NoJoinAccept => [.enqueue .NewSession]
  | .NewSession => [.sendAfter transmit_delay .SendPacket]
  | .Idle => []
  | .NoAck =>
    (if hasPrometheus then [.report .DownlinkTimeout] else []) ++
      [.sendAfter transmit_delay .SendPacket]
  | .ReadyToSend => [.sendAfter transmit_delay .SendPacket]
  | .DataDown _ =>
    (match time with
     | some t => if hasPrometheus then [.report (.DownlinkResponse t)] else []
     | none => []) ++
      [.sendAfter (transmit_delay + jitterVal jitter rand) .SendPacket]
  | .Rxing => []
  | .otherResponse _ => []

/-- The bootstrap `try_send(NewSession)` performed by `run_loop` before
its event loop starts. -/
def runLoopInit : List IntermediateEvent := [IntermediateEvent.NewSession]

/-- Events a list of driver actions injects (now or after a sleep) into
the internal queue. -/
def scheduledEvents : List DriverAction → List IntermediateEvent
  | [] => []
  | .enqueue e :: rest => e :: scheduledEvents rest
  | .sendAfter _ e :: rest => e :: scheduledEvents rest
  | .armTimer _ :: rest => scheduledEvents rest
  | .report _ :: rest => scheduledEvents rest

/-- One iteration of `run_loop` viewed on the internal queue: pop the
front event, run the engine (abstracted by the response it returns), and
append every event the response handling schedules. -/
def loopStep (transmit_delay : Nat) (jitter : Bool) (rand : Nat)
    (time : Option Nat) (hasPrometheus : Bool)
    (queue : List IntermediateEvent) (resp : LorawanResponse) :
    List IntermediateEvent :=
  match queue with
  | [] => []
  | _ :: rest =>
    rest ++ scheduledEvents
      (handleResponse resp transmit_delay jitter rand time hasPrometheus)

/-! ## Error handling (the `Err` match of `run_loop`).  The two tolerated
variants of each engine error enum are named in the source; the enums
live in the external `lorawan_device` crate, so their remaining
variants — all swallowed by the wildcard panic arm of the source — are
abstracted as `otherKind`. -/

namespace session

/-- Embedding of the `lorawan_device::session::Error` kinds as matched by `run_loop`. -/
inductive Error
  | RadioEventWhileIdle
  | RadioEventWhileWaitingForRxWindow
  | otherKind (k : Nat)
deriving DecidableEq

end session

namespace no_session

/-- Embedding of the `lorawan_device::no_session::Error` kinds as matched by `run_loop`. -/
inductive Error
  | RadioEventWhileIdle
  | RadioEventWhileWaitingForJoinWindow
  | otherKind (k : Nat)
deriving DecidableEq

end no_session

/-- Embedding of `lorawan_device::Error`: the delivery-error union `run_loop`
receives; the radio error payload is opaque to the match. -/
inductive LorawanError
  | Radio (k : Nat)
  | Session (e : session.Error)
  | NoSession (e : no_session.Error)

/-- Whether an engine error is swallowed or terminates the process. -/
inductive ErrorOutcome
  | ignored
  | fatal
deriving DecidableEq

/-- The `Err(err)` match of `run_loop`. -/
def handleError : LorawanError → ErrorOutcome
  | .Radio _ => .ignored
  | .Session e =>
    match e with
    | .RadioEventWhileIdle => .ignored
    | .RadioEventWhileWaitingForRxWindow => .ignored
    | .otherKind _ => .fatal
  | .NoSession e =>
    match e with
    | .RadioEventWhileIdle => .ignored
    | .RadioEventWhileWaitingForJoinWindow => .ignored
    | .otherKind _ => .fatal

/-! ## Helper lemmas -/

theorem fillRxBuffer_spec :
    ∀ (xs buf : List Nat), buf.length ≤ rxBufferCapacity →
      fillRxBuffer buf xs =
        if buf.length + xs.length ≤ rxBufferCapacity then some (buf ++ xs)
        else none := by
  intro xs
  induction xs with
  | nil =>
    intro buf h
    simp only [fillRxBuffer, List.length_nil, Nat.add_zero, List.append_nil,
      if_pos h]
  | cons x xs ih =>
    intro buf h
    by_cases hlt : buf.length < rxBufferCapacity
    · have hstep : fillRxBuffer buf (x :: xs) = fillRxBuffer (buf ++ [x]) xs := by
        simp [fillRxBuffer, rxBufferPush, hlt]
      rw [hstep, ih (buf ++ [x]) (by simp only [List.length_append,
        List.length_cons, List.length_nil]; omega)]
      simp only [List.length_append, List.length_cons, List.length_nil,
        List.append_assoc, List.singleton_append]
      by_cases hc : buf.length + (xs.length + 1) ≤ rxBufferCapacity
      · rw [if_pos (by omega), if_pos (by omega)]
      · rw [if_neg (by omega), if_neg (by omega)]
    · have hstep : fillRxBuffer buf (x :: xs) = none := by
        simp [fillRxBuffer, rxBufferPush, hlt]
      rw [hstep, if_neg (by simp only [List.length_cons]; omega)]

theorem hexEncode_length (bs : List Nat) :
    (hexEncode bs).length = 2 * bs.length := by
  induction bs with
  | nil => simp [hexEncode]
  | cons b rest ih =>
    simp only [hexEncode, List.map_cons, List.flatten_cons,
      List.length_append, List.length_cons] at ih ⊢
    simp [hexEncodeByte, ih]
    omega

/-- A concrete radio configuration, used by the witnesses. -/
def cfg0 : RfConfig :=
  { spreading_factor := .SF7
    bandwidth := .BW125
    coding_rate := .CR4over5
    frequency := 868100000 }

/-- A concrete adapter state (empty outbound queue of capacity 100, the
capacity `UdpRadio::new` gives `mpsc::channel`), used by the witnesses. -/
def st0 : UdpRadioState :=
  { outbound := []
    outboundCap := 100
    rx_buffer := []
    settings := cfg0
    window_start := 0
    jitter := true }

/-! ## Claims -/

/-- C1: an inbound downlink record whose numeric microsecond timestamp
`n` satisfies `n / 1000 = scheduledMs ≤ nowMs` is dropped by the event
router with a warning, and no `InboundFrame` (`Rx`) delivery is ever
scheduled for it. -/
theorem C1_late_inbound_dropped (n nowMs : Nat) (h : n / 1000 ≤ nowMs) :
    routePullResp (.N n) nowMs = .dropLate (nowMs - n / 1000) ∧
    ∀ sleepMs delayMs,
      routePullResp (.N n) nowMs ≠ .scheduleRx sleepMs delayMs := by
  have hdrop : routePullResp (.N n) nowMs = .dropLate (nowMs - n / 1000) := by
    simp only [routePullResp]
    rw [if_neg (by omega)]
  exact ⟨hdrop, fun s d hc => by rw [hdrop] at hc; exact absurd hc (by simp)⟩

theorem C1_late_inbound_dropped_witness :
    routePullResp (.N 5000) 7 = .dropLate (7 - 5000 / 1000) ∧
    ∀ sleepMs delayMs,
      routePullResp (.N 5000) 7 ≠ .scheduleRx sleepMs delayMs :=
  C1_late_inbound_dropped 5000 7 (by decide)

/-- C2: an inbound downlink record with numeric microsecond timestamp
`n` and `n / 1000 = scheduledMs > nowMs` is scheduled: the router spawns
a task sleeping `(scheduledMs - nowMs) + 50` ms which then enqueues the
`Rx` event carrying delay `scheduledMs - nowMs`; in particular
`n = 5000000` at `nowMs = 3000` sleeps 2050 ms and carries delay 2000. -/
theorem C2_future_inbound_scheduled (n nowMs : Nat)
    (h : nowMs < n / 1000) :
    routePullResp (.N n) nowMs =
      .scheduleRx (n / 1000 - nowMs + 50) (n / 1000 - nowMs) ∧
    routePullResp (.N 5000000) 3000 = .scheduleRx 2050 2000 := by
  constructor
  · simp only [routePullResp]
    rw [if_pos (by omega)]
  · decide

theorem C2_future_inbound_scheduled_witness :
    routePullResp (.N 5000000) 3000 =
      .scheduleRx (5000000 / 1000 - 3000 + 50) (5000000 / 1000 - 3000) ∧
    routePullResp (.N 5000000) 3000 = .scheduleRx 2050 2000 :=
  C2_future_inbound_scheduled 5000000 3000 (by decide)

/-- C10: the timer arms with the u32 subtraction
`future_time - elapsed_ms`.  When `future_time` is not in the past the
delay is the plain difference (in both debug and release semantics);
when `future_time < elapsed_ms` the debug subtraction overflows (the
checked model returns `none`, a panic) and the release subtraction wraps
to `2^32 - (elapsed_ms - future_time)` — at least `2^32 - elapsed_ms`
ms, so the `Timeout` is not delivered promptly.  `timer` sleeps exactly
this delay. -/
theorem C10_timer_underflow (future_time nowMs : Nat)
    (hf : future_time < 2 ^ 32) (hn : nowMs < 2 ^ 32) :
    (nowMs ≤ future_time →
      timerDelay future_time nowMs = future_time - nowMs ∧
      timerDelayChecked future_time nowMs = some (future_time - nowMs)) ∧
    (future_time < nowMs →
      timerDelayChecked future_time nowMs = none ∧
      timerDelay future_time nowMs = 2 ^ 32 - (nowMs - future_time) ∧
      2 ^ 32 - nowMs ≤ timerDelay future_time nowMs) ∧
    timer future_time nowMs = (timerDelay future_time nowMs,
      timerDelay future_time nowMs) := by
  refine ⟨?_, ?_, rfl⟩
  · intro hle
    simp only [timerDelay, timerDelayChecked, Nat.mod_eq_of_lt hf,
      Nat.mod_eq_of_lt hn]
    rw [if_pos hle]
    constructor
    · omega
    · rfl
  · intro hlt
    simp only [timerDelay, timerDelayChecked, Nat.mod_eq_of_lt hf,
      Nat.mod_eq_of_lt hn]
    rw [if_neg (by omega)]
    refine ⟨rfl, by omega, by omega⟩

theorem C10_timer_underflow_witness :
    (3000 ≤ 5000 →
      timerDelay 5000 3000 = 5000 - 3000 ∧
      timerDelayChecked 5000 3000 = some (5000 - 3000)) ∧
    (5000 < 3000 →
      timerDelayChecked 5000 3000 = none ∧
      timerDelay 5000 3000 = 2 ^ 32 - (3000 - 5000) ∧
      2 ^ 32 - 3000 ≤ timerDelay 5000 3000) ∧
    timer 5000 3000 = (timerDelay 5000 3000, timerDelay 5000 3000) :=
  C10_timer_underflow 5000 3000 (by decide) (by decide)

/-- C9 counterexample: the claim says the label is the LAST 12
characters of the uppercased hex string, but on the concrete DevEUI
`[1,2,3,4,5,6,7,8]` the implementation (the Rust slice `[12..]`, which
drops the FIRST 12 characters) produces a different string. -/
theorem C9_label_counterexample :
    pretty_device [1, 2, 3, 4, 5, 6, 7, 8] ≠
      pretty_device_specLast12 [1, 2, 3, 4, 5, 6, 7, 8] := by
  decide

/-- C9 (amended): the device label is computed deterministically from
the device EUI by reversing the byte order, hex-encoding, uppercasing,
and DROPPING THE FIRST 12 characters of the resulting string — for an
8-byte EUI that leaves the last 4 characters. -/
theorem C9_label_amended (deveui : List Nat) (h : deveui.length = 8) :
    pretty_device deveui =
      ((hexEncode deveui.reverse).map Char.toUpper).drop 12 ∧
    (pretty_device deveui).length = 4 ∧
    pretty_device deveui =
      ((hexEncode deveui.reverse).map Char.toUpper).drop
        (((hexEncode deveui.reverse).map Char.toUpper).length - 4) := by
  have hlen : (((hexEncode deveui.reverse).map Char.toUpper)).length = 16 := by
    rw [List.length_map, hexEncode_length, List.length_reverse, h]
  refine ⟨rfl, ?_, ?_⟩
  · simp only [pretty_device, List.length_drop, hlen]
  · simp only [pretty_device, hlen]

theorem C9_label_amended_witness :
    pretty_device [1, 2, 3, 4, 5, 6, 7, 8] =
      ((hexEncode (List.reverse [1, 2, 3, 4, 5, 6, 7, 8])).map
        Char.toUpper).drop 12 ∧
    (pretty_device [1, 2, 3, 4, 5, 6, 7, 8]).length = 4 ∧
    pretty_device [1, 2, 3, 4, 5, 6, 7, 8] =
      ((hexEncode (List.reverse [1, 2, 3, 4, 5, 6, 7, 8])).map
        Char.toUpper).drop
        (((hexEncode (List.reverse [1, 2, 3, 4, 5, 6, 7, 8])).map
          Char.toUpper).length - 4) :=
  C9_label_amended [1, 2, 3, 4, 5, 6, 7, 8] (by decide)

/-- C3: the wire translation of the adapter round-trips — any transmit that
succeeds appends exactly one outbound record whose base64 `data` field
decodes back to the original buffer — and an inbound payload whose
encoded form is not valid base64 makes `handle_event` fatal (process
panic), not an error return. -/
theorem C3_roundtrip_and_fatal_decode :
    (∀ (st : UdpRadioState) (nowMicros nowMillis : Nat) (tx : RfConfig)
       (buffer : List Nat), (∀ x ∈ buffer, x < 256) →
       ∀ st2 resp,
         handle_event st nowMicros nowMillis (.TxRequest tx buffer) =
           .ok (st2, resp) →
         ∃ r, st2.outbound = st.outbound ++ [r] ∧
           b64decode r.data = some buffer) ∧
    (∀ (st : UdpRadioState) (nowMicros nowMillis : Nat)
       (encoded : List Char), b64decode encoded = none →
       handle_event st nowMicros nowMillis (.PhyEvent encoded) =
         .fatal "Semtech UDP Packet Decoding Error") := by
  constructor
  · intro st nowMicros nowMillis tx buffer hbytes st2 resp hok
    simp only [handle_event] at hok
    by_cases hfull : st.outbound.length < st.outboundCap
    · rw [if_pos hfull] at hok
      injection hok with hpair
      injection hpair with hst hresp
      subst hst
      exact ⟨_, rfl, b64_roundtrip buffer hbytes⟩
    · rw [if_neg hfull] at hok
      exact absurd hok (by simp)
  · intro st nowMicros nowMillis encoded hbad
    simp only [handle_event, hbad]

theorem C3_roundtrip_and_fatal_decode_witness :
    (∃ r, ({ st0 with outbound := st0.outbound ++
        [({ chan := 0, codr := get_codr cfg0, data := b64encode [1, 2, 3],
            datr := get_datr cfg0, freq := get_freq cfg0, lsnr := 5.5,
            modu := "LORA", rfch := 0, rssi := -112, size := 3, stat := 1,
            tmst := 5 % 2 ^ 64 } : RxPk)] } : UdpRadioState).outbound =
        st0.outbound ++ [r] ∧ b64decode r.data = some [1, 2, 3]) ∧
    handle_event st0 5 7 (.PhyEvent ['!', '!', '!', '!']) =
      .fatal "Semtech UDP Packet Decoding Error" :=
  ⟨C3_roundtrip_and_fatal_decode.1 st0 5 7 cfg0 [1, 2, 3] (by decide) _ _
      rfl,
   C3_roundtrip_and_fatal_decode.2 st0 5 7 ['!', '!', '!', '!']
      (by decide)⟩

/-- C4: a transmit request is fatal exactly when the non-blocking push
to the outbound channel fails because the channel is full; otherwise it
pushes exactly one outbound record whose fields are channel 0, the fixed
coding-rate string, the spreading+bandwidth label, frequency Hz/1e6 MHz,
SNR 5.5, modulation "LORA", RF chain 0, RSSI -112, size the buffer
length, timestamp the elapsed microseconds, and returns `TxDone` with
the elapsed-millisecond snapshot. -/
theorem C4_transmit_fatal_iff_full (st : UdpRadioState)
    (nowMicros nowMillis : Nat) (tx : RfConfig) (buffer : List Nat)
    (hmic : nowMicros < 2 ^ 64) (hmil : nowMillis < 2 ^ 32) :
    ((∃ m, handle_event st nowMicros nowMillis (.TxRequest tx buffer) =
        .fatal m) ↔ st.outboundCap ≤ st.outbound.length) ∧
    (st.outbound.length < st.outboundCap →
      handle_event st nowMicros nowMillis (.TxRequest tx buffer) =
        .ok ({ st with outbound := st.outbound ++
          [{ chan := 0
             codr := get_codr tx
             data := b64encode buffer
             datr := get_datr tx
             freq := (tx.frequency : ℚ) / 1000000
             lsnr := 5.5
             modu := "LORA"
             rfch := 0
             rssi := -112
             size := buffer.length
             stat := 1
             tmst := nowMicros }] },
          .TxDone nowMillis)) := by
  constructor
  · by_cases hfull : st.outbound.length < st.outboundCap
    · simp only [handle_event, if_pos hfull]
      constructor
      · rintro ⟨m, hm⟩
        exact absurd hm (by simp)
      · intro hge
        omega
    · simp only [handle_event, if_neg hfull]
      exact ⟨fun _ => by omega, fun _ => ⟨_, rfl⟩⟩
  · intro hroom
    simp only [handle_event, if_pos hroom, Nat.mod_eq_of_lt hmic,
      Nat.mod_eq_of_lt hmil, get_freq]

theorem C4_transmit_fatal_iff_full_witness :
    ((∃ m, handle_event st0 5 7 (.TxRequest cfg0 [1, 2, 3]) =
        .fatal m) ↔ st0.outboundCap ≤ st0.outbound.length) ∧
    (st0.outbound.length < st0.outboundCap →
      handle_event st0 5 7 (.TxRequest cfg0 [1, 2, 3]) =
        .ok ({ st0 with outbound := st0.outbound ++
          [{ chan := 0
             codr := get_codr cfg0
             data := b64encode [1, 2, 3]
             datr := get_datr cfg0
             freq := ((cfg0.frequency : ℚ) / 1000000)
             lsnr := 5.5
             modu := "LORA"
             rfch := 0
             rssi := -112
             size := List.length [1, 2, 3]
             stat := 1
             tmst := 5 }] },
          .TxDone 7)) :=
  C4_transmit_fatal_iff_full st0 5 7 cfg0 [1, 2, 3] (by decide) (by decide)

/-- C5: a successful inbound PHY event leaves the receive buffer holding
exactly the decoded bytes (the buffer is cleared first, so the previous
contents are irrelevant) and returns `RxDone` with the fixed quality
RSSI -115 / SNR 4; a decoded payload of up to 256 bytes succeeds and one
of 257 or more bytes is fatal (buffer capacity overflow). -/
theorem C5_rx_buffer_capacity (st : UdpRadioState)
    (nowMicros nowMillis : Nat) (encoded : List Char) (data : List Nat)
    (h : b64decode encoded = some data) :
    (data.length ≤ 256 →
      handle_event st nowMicros nowMillis (.PhyEvent encoded) =
        .ok ({ st with rx_buffer := data }, .RxDone (-115) 4)) ∧
    (256 < data.length →
      handle_event st nowMicros nowMillis (.PhyEvent encoded) =
        .fatal "Error pushing data into rx_buffer") := by
  have hfill := fillRxBuffer_spec data [] (by simp [rxBufferCapacity])
  simp only [List.length_nil, Nat.zero_add, List.nil_append] at hfill
  constructor
  · intro hle
    rw [if_pos (by simpa [rxBufferCapacity] using hle)] at hfill
    simp only [handle_event, h, hfill]
  · intro hgt
    rw [if_neg (by simp [rxBufferCapacity]; omega)] at hfill
    simp only [handle_event, h, hfill]

theorem C5_rx_buffer_capacity_witness :
    handle_event st0 0 0
        (.PhyEvent (b64encode (List.replicate 256 7))) =
      .ok ({ st0 with rx_buffer := List.replicate 256 7 },
        .RxDone (-115) 4) ∧
    handle_event st0 0 0
        (.PhyEvent (b64encode (List.replicate 257 7))) =
      .fatal "Error pushing data into rx_buffer" :=
  ⟨(C5_rx_buffer_capacity st0 0 0 _ _
      (b64_roundtrip (List.replicate 256 7)
        (by intro x hx; rw [List.eq_of_mem_replicate hx]; omega))).1
      (by simp only [List.length_replicate]; omega),
   (C5_rx_buffer_capacity st0 0 0 _ _
      (b64_roundtrip (List.replicate 257 7)
        (by intro x hx; rw [List.eq_of_mem_replicate hx]; omega))).2
      (by simp only [List.length_replicate]; omega)⟩

/-- C6: the driver loop unconditionally enqueues exactly one
`NewSession` bootstrap before processing any event, and handling the
session-established response enqueues exactly one `SendPacket`, via a
spawned task that sleeps the fixed base transmit delay. -/
theorem C6_bootstrap_then_single_uplink (transmit_delay : Nat)
    (jitter : Bool) (rand : Nat) (time : Option Nat)
    (hasPrometheus : Bool) :
    runLoopInit = [IntermediateEvent.NewSession] ∧
    handleResponse .NewSession transmit_delay jitter rand time
        hasPrometheus =
      [.sendAfter transmit_delay .SendPacket] ∧
    (scheduledEvents (handleResponse .NewSession transmit_delay jitter
      rand time hasPrometheus)).count IntermediateEvent.SendPacket = 1 := by
  refine ⟨rfl, rfl, ?_⟩
  simp [handleResponse, scheduledEvents]

/-- C7: the driver loop never reaches a terminal state — each of the
no-acknowledgment, ready-to-send, and downlink-received responses
schedules exactly one further `SendPacket` after the base transmit delay
(downlink-received adding a 0–127 ms jitter term when jitter is
enabled), join-rejected re-enqueues `NewSession`, and hence a loop step
on a nonempty queue with any of these responses leaves the queue
nonempty: another uplink or join attempt is always enqueued. -/
theorem C7_never_terminal (transmit_delay : Nat) (jitter : Bool)
    (rand : Nat) (time : Option Nat) (hasPrometheus : Bool) :
    scheduledEvents (handleResponse .NoAck transmit_delay jitter rand
      time hasPrometheus) = [.SendPacket] ∧
    DriverAction.sendAfter transmit_delay .SendPacket ∈
      handleResponse .NoAck transmit_delay jitter rand time
        hasPrometheus ∧
    scheduledEvents (handleResponse .ReadyToSend transmit_delay jitter
      rand time hasPrometheus) = [.SendPacket] ∧
    DriverAction.sendAfter transmit_delay .SendPacket ∈
      handleResponse .ReadyToSend transmit_delay jitter rand time
        hasPrometheus ∧
    (∀ f, scheduledEvents (handleResponse (.DataDown f) transmit_delay
      jitter rand time hasPrometheus) = [.SendPacket]) ∧
    (∀ f, DriverAction.sendAfter (transmit_delay + jitterVal jitter rand)
      IntermediateEvent.SendPacket ∈
        handleResponse (.DataDown f) transmit_delay jitter rand time
          hasPrometheus) ∧
    jitterVal jitter rand ≤ 127 ∧
    (jitter = false → jitterVal jitter rand = 0) ∧
    scheduledEvents (handleResponse .NoJoinAccept transmit_delay jitter
      rand time hasPrometheus) = [.NewSession] ∧
    (∀ (queue : List IntermediateEvent) (resp : LorawanResponse),
      queue ≠ [] →
      (resp = .NoAck ∨ resp = .ReadyToSend ∨ resp = .NoJoinAccept ∨
        ∃ f, resp = .DataDown f) →
      loopStep transmit_delay jitter rand time hasPrometheus queue
        resp ≠ []) := by
  refine ⟨?_, ?_, ?_, ?_, ?_, ?_, ?_, ?_, ?_, ?_⟩
  · cases hasPrometheus <;> simp [handleResponse, scheduledEvents]
  · cases hasPrometheus <;> simp [handleResponse]
  · simp [handleResponse, scheduledEvents]
  · simp [handleResponse]
  · intro f
    cases time with
    | none => cases hasPrometheus <;> simp [handleResponse, scheduledEvents]
    | some t => cases hasPrometheus <;> simp [handleResponse, scheduledEvents]
  · intro f
    cases time with
    | none => cases hasPrometheus <;> simp [handleResponse]
    | some t => cases hasPrometheus <;> simp [handleResponse]
  · cases jitter with
    | false => simp [jitterVal]
    | true => simpa [jitterVal] using Nat.and_le_right
  · intro hj
    simp [jitterVal, hj]
  · simp [handleResponse, scheduledEvents]
  · intro queue resp hq hr
    match queue with
    | [] => exact absurd rfl hq
    | e :: rest =>
      have hsch : scheduledEvents (handleResponse resp transmit_delay
          jitter rand time hasPrometheus) ≠ [] := by
        rcases hr with h | h | h | ⟨f, h⟩ <;> subst h
        · cases hasPrometheus <;> simp [handleResponse, scheduledEvents]
        · simp [handleResponse, scheduledEvents]
        · simp [handleResponse, scheduledEvents]
        · cases time with
          | none =>
            cases hasPrometheus <;> simp [handleResponse, scheduledEvents]
          | some t =>
            cases hasPrometheus <;> simp [handleResponse, scheduledEvents]
      simp only [loopStep, ne_eq, List.append_eq_nil]
      intro hcontra
      exact hsch hcontra.2

theorem C7_never_terminal_witness :
    loopStep 0 false 0 none false [IntermediateEvent.SendPacket]
      LorawanResponse.NoAck ≠ [] :=
  (C7_never_terminal 0 false 0 none false).2.2.2.2.2.2.2.2.2
    [IntermediateEvent.SendPacket] .NoAck (by simp) (Or.inl rfl)

/-- C8: every radio-layer delivery error is ignored, and a session or
no-session error is ignored exactly when its kind is
event-received-while-idle or event-received-while-waiting-for-the
rx/join window; every other kind terminates the process. -/
theorem C8_engine_error_discipline :
    (∀ k, handleError (.Radio k) = .ignored) ∧
    (∀ e, handleError (.Session e) = .ignored ↔
      (e = session.Error.RadioEventWhileIdle ∨
       e = session.Error.RadioEventWhileWaitingForRxWindow)) ∧
    (∀ e, handleError (.NoSession e) = .ignored ↔
      (e = no_session.Error.RadioEventWhileIdle ∨
       e = no_session.Error.RadioEventWhileWaitingForJoinWindow)) ∧
    (∀ e, ¬(e = session.Error.RadioEventWhileIdle ∨
        e = session.Error.RadioEventWhileWaitingForRxWindow) →
      handleError (.Session e) = .fatal) ∧
    (∀ e, ¬(e = no_session.Error.RadioEventWhileIdle ∨
        e = no_session.Error.RadioEventWhileWaitingForJoinWindow) →
      handleError (.NoSession e) = .fatal) := by
  refine ⟨fun k => rfl, ?_, ?_, ?_, ?_⟩ <;>
    intro e <;> cases e <;> simp [handleError]

theorem C8_engine_error_discipline_witness :
    handleError (.Session (session.Error.otherKind 3)) = .fatal ∧
    handleError (.NoSession (no_session.Error.otherKind 3)) = .fatal :=
  ⟨C8_engine_error_discipline.2.2.2.1 (session.Error.otherKind 3)
      (by simp),
   C8_engine_error_discipline.2.2.2.2 (no_session.Error.otherKind 3)
      (by simp)⟩

end VirtualLorawan
